import Mathlib

/-!
Shallow embedding of the auto-flush static-metric code generator of
rust-prometheus (src/static-metric/src/auto_flush_builder.rs), together
with the parts of the DSL AST and the naming helpers that it consumes.

The AST types mirror the parser items (label enums, metric definitions,
label definitions with inline value lists or enum references).  Token
emission is modelled structurally: instead of producing Rust source text,
each emitter returns a record holding exactly the data the corresponding
quote! block interpolates (field names and types, match arms, offset
statements, and so on).  Fallible code (panics in the Rust source) is
modelled with Except.
-/

/-- Visibility of an item.  The source only distinguishes
Visibility::Public from everything else (the TODO in
build_metric_struct), so the embedding keeps two cases. -/
inductive Visibility where
  | pub
  | inherited
deriving DecidableEq, Repr

/-- Modelled from the spec: a (variant name, label string) pair of an enum
declaration or of an inline value list (parser.rs is not under src/). -/
structure ValueDef where
  name : String
  value : String
deriving DecidableEq, Repr

/-- Modelled from the spec: the value source of one label dimension,
either an inline list of value definitions or a reference to a named
label_enum (parser.rs is not under src/). -/
inductive MetricValueDefList where
  | inline_list (defs : List ValueDef)
  | dependency (enum_name : String)
deriving DecidableEq, Repr

/-- Modelled from the spec: one label dimension of a metric
(parser.rs is not under src/). -/
structure MetricLabelDef where
  label_key : String
  values : MetricValueDefList
deriving DecidableEq, Repr

instance : Inhabited MetricLabelDef := ⟨⟨"", .inline_list []⟩⟩

/-- Modelled from the spec: a label_enum declaration
(parser.rs is not under src/). -/
structure MetricEnumDef where
  visibility : Visibility
  enum_name : String
  definitions : List ValueDef
deriving DecidableEq, Repr

/-- Modelled from the spec: a metric struct declaration with its ordered
label hierarchy (parser.rs is not under src/). -/
structure MetricDef where
  visibility : Visibility
  struct_name : String
  metric_type : String
  labels : List MetricLabelDef
deriving DecidableEq, Repr

/-- One item of the macro body: a metric or a label enum, in declaration
order. -/
inductive BodyItem where
  | Metric (m : MetricDef)
  | Enum (e : MetricEnumDef)
deriving DecidableEq, Repr

/-- The enum environment built up during the single forward pass of
AutoFlushTokensBuilder::build (a HashMap in the source; association list
here, with insertion by cons and lookup of the most recent binding). -/
abbrev EnumEnv := List (String × MetricEnumDef)

/-- HashMap::get on the enum environment. -/
def lookup_enum (env : EnumEnv) (e : String) : Option MetricEnumDef :=
  (env.find? (fun p => p.1 == e)).map (fun p => p.2)

/-- Modelled from the spec: MetricLabelDef::get_enum_ident of parser.rs,
which is some ident exactly for labels defined via a named label_enum. -/
def MetricLabelDef.get_enum_ident : MetricLabelDef → Option String
  | ⟨_, .dependency e⟩ => some e
  | ⟨_, .inline_list _⟩ => none

/-- Modelled from the spec: MetricLabelDef::get_value_def_list of
parser.rs.  For an inline list it is that list; for an enum reference it
is the referenced enum value-definition list (the source unwraps the
lookup, which validation has already guaranteed; the unreachable missing
case yields the empty list here). -/
def MetricLabelDef.get_value_def_list (l : MetricLabelDef) (env : EnumEnv) : List ValueDef :=
  match l.values with
  | .inline_list ds => ds
  | .dependency e =>
    match lookup_enum env e with
    | some ed => ed.definitions
    | none => []

/-- Modelled from the spec: MetricEnumDef::build_fields_with_path of
parser.rs, the match patterns EnumName::variant for each variant, in
declaration order. -/
def MetricEnumDef.build_fields_with_path (ed : MetricEnumDef) : List String :=
  ed.definitions.map (fun d => ed.enum_name ++ "::" ++ d.name)

/-- Modelled from the spec: util::get_label_struct_name (util.rs is not
under src/).  Depth 0 uses the declared struct name; depth d appends
(d + 1), matching the deterministic StructurePlan naming. -/
def get_label_struct_name (struct_name : String) (label_index : Nat) : String :=
  if label_index = 0 then struct_name else struct_name ++ toString (label_index + 1)

/-- Modelled from the spec: util::get_member_type — the concrete metric
type at the leaf, otherwise the next depth struct name. -/
def get_member_type (struct_name : String) (label_index : Nat) (metric_type : String)
    (is_last_label : Bool) : String :=
  cond is_last_label metric_type (get_label_struct_name struct_name (label_index + 1))

/-- Modelled from the spec: util::get_inner_member_type — the concrete
metric type at the leaf, otherwise the next depth Inner struct name. -/
def get_inner_member_type (struct_name : String) (label_index : Nat) (metric_type : String)
    (is_last_label : Bool) : String :=
  cond is_last_label metric_type (get_label_struct_name struct_name (label_index + 1) ++ "Inner")

/-- Modelled from the spec: util::get_delegator_member_type — a plain
usize offset at the leaf, otherwise the next depth Delegator name. -/
def get_delegator_member_type (struct_name : String) (label_index : Nat)
    (is_last_label : Bool) : String :=
  cond is_last_label "usize" (get_label_struct_name struct_name (label_index + 1) ++ "Delegator")

/-- Fatal generation failures.  Panics in the source are modelled as
errors: the two unwrap/validation panics carry the spec error names, the
expect/index panic of offset computation is the LayoutAssumptionViolation
of the spec, and debug-mode checked usize subtraction underflow is
ArithmeticUnderflow. -/
inductive BuildError where
  | UndefinedEnumError (name : String)
  | VisibilityError (enum_name metric_name : String)
  | LayoutAssumptionViolation (msg : String)
  | ArithmeticUnderflow
  | IndexOutOfBounds
deriving DecidableEq, Repr

/-- Rust debug-mode (checked) usize subtraction. -/
def checked_sub (a b : Nat) : Option Nat :=
  if b ≤ a then some (a - b) else none

/-- The list [s, s+1, ..., s+n-1], used for enumerate() ranges and for
the (1..=len) offset-field suffix range of the source. -/
def range_from (s : Nat) : Nat → List Nat
  | 0 => []
  | n + 1 => s :: range_from (s + 1) n

/-- MetricBuilderContext of auto_flush_builder.rs: the per-depth plan,
with the same stored fields as the source struct. -/
structure MetricBuilderContext where
  metric : MetricDef
  enum_definitions : EnumEnv
  label : MetricLabelDef
  label_index : Nat
  is_last_label : Bool
  is_secondary_last_label : Bool
  root_struct_name : String
  struct_name : String
  member_type : String
  delegator_member_type : String
  next_member_type : String
  inner_member_type : String
  inner_next_member_type : String
deriving Repr

/-- The pure field computation of MetricBuilderContext::new (the body of
the struct expression); the flags use truncating Nat subtraction, which
agrees with the source whenever the checked subtractions in
MetricBuilderContext.new succeeded. -/
def mk_context (m : MetricDef) (env : EnumEnv) (i : Nat) : MetricBuilderContext :=
  { metric := m
    enum_definitions := env
    label := (m.labels.get? i).getD default
    label_index := i
    is_last_label := decide (i = m.labels.length - 1)
    is_secondary_last_label := decide (i = m.labels.length - 2)
    root_struct_name := get_label_struct_name m.struct_name 0
    struct_name := get_label_struct_name m.struct_name i
    member_type := get_member_type m.struct_name i m.metric_type (decide (i = m.labels.length - 1))
    delegator_member_type :=
      get_delegator_member_type m.struct_name i (decide (i = m.labels.length - 1))
    next_member_type :=
      get_member_type m.struct_name i m.metric_type (decide (i = m.labels.length - 2))
    inner_member_type :=
      get_inner_member_type m.struct_name i m.metric_type (decide (i = m.labels.length - 1))
    inner_next_member_type :=
      get_inner_member_type m.struct_name (i + 1) m.metric_type
        (decide (i = m.labels.length - 2)) }

/-- MetricBuilderContext::new.  The source evaluates the two usize
subtractions labels.len() - 1 and labels.len() - 2 (checked in debug
builds) and then indexes metric.labels[label_index]; each failure is a
panic, modelled as an error. -/
def MetricBuilderContext.new (m : MetricDef) (env : EnumEnv) (i : Nat) :
    Except BuildError MetricBuilderContext :=
  match checked_sub m.labels.length 1 with
  | none => .error .ArithmeticUnderflow
  | some _ =>
    match checked_sub m.labels.length 2 with
    | none => .error .ArithmeticUnderflow
    | some _ =>
      match m.labels.get? i with
      | none => .error .IndexOutOfBounds
      | some _ => .ok (mk_context m env i)

/-- MetricBuilderContext::inner_struct_name. -/
def MetricBuilderContext.inner_struct_name (c : MetricBuilderContext) : String :=
  c.struct_name ++ "Inner"

/-- MetricBuilderContext::delegator_struct_name. -/
def MetricBuilderContext.delegator_struct_name (c : MetricBuilderContext) : String :=
  c.struct_name ++ "Delegator"

/-- MetricBuilderContext::delegator_field_names: the value names of the
next depth label (the source indexes labels[label_index + 1]; both call
sites are guarded by is_last_label, so the index is in bounds there). -/
def MetricBuilderContext.delegator_field_names (c : MetricBuilderContext) : List String :=
  (((c.metric.labels.get? (c.label_index + 1)).getD default).get_value_def_list
      c.enum_definitions).map ValueDef.name

/-- Tokens of one emitted Inner struct: its name, its value fields with
their member type, and whether the struct additionally carries the
last_flush Cell-of-Instant field (build_inner_struct emits that field
exactly when label_index == 0). -/
structure InnerStructTokens where
  name : String
  fields : List (String × String)
  has_last_flush : Bool
deriving Repr

/-- Tokens of the emitted fn from of an Inner struct: the previous-label
parameters, and whether the body initializes last_flush with the current
instant (build_inner_impl_from_body emits that exactly when
label_index == 0). -/
structure InnerFromTokens where
  prev_label_params : List String
  inits_last_flush : Bool
deriving Repr

/-- Tokens of the emitted trait impl block of an Inner struct
(build_inner_trait_impl): the LocalMetric flush forwarding plus the
MayFlush impl whose try_flush threshold is the given constant. -/
structure InnerTraitTokens where
  may_flush_threshold : ℚ
deriving Repr

/-- Tokens of one emitted Delegator struct: its name, the referenced root
Inner type when the root field is present, and the value fields with
their types. -/
structure DelegatorStructTokens where
  name : String
  root : Option String
  fields : List (String × String)
deriving Repr

/-- Tokens of an emitted enum-keyed fn get: the scrutinee enum, the
return type, and the match arms as (pattern, field name) pairs, in
emission order. -/
structure GetTokens where
  enum_name : String
  return_type : String
  arms : List (String × String)
deriving Repr

/-- One statement of the unsafe block emitted by offset_fetcher inside
fn get_counter: optionally bind the root pointer to svar, bind mvar to
the address svar + self.offset{off_index}, and finally (at the leaf)
dereference mvar as the produced reference. -/
structure FetchStmt where
  binds_base : Bool
  svar : String
  mvar : String
  off_index : Nat
  deref : Bool
deriving Repr

/-- Tokens of the emitted depth-0 fn from (build_outer_impl_from): the
LocalKey parameter Inner type, the declared return type — which the
source hardcodes as Lhrs — and the struct name actually constructed by
the body. -/
structure OuterFromTokens where
  param_inner_type : String
  return_type : String
  constructed_type : String
deriving Repr

/-- The per-depth token bundle of the first map in build_metric_struct. -/
structure DepthTokens where
  inner : InnerStructTokens
  inner_from : InnerFromTokens
  inner_trait : Option InnerTraitTokens
  delegator : DelegatorStructTokens
  delegator_get : Option GetTokens
deriving Repr

/-- Tokens of one expanded metric: the uniquely numbered scope, the
per-depth structs, the offset chain of the leaf get_counter body, and the
depth-0 outer impl pieces. -/
structure MetricTokens where
  scope_name : String
  depths : List DepthTokens
  get_counter_chain : List FetchStmt
  outer_from : OuterFromTokens
  outer_get : Option GetTokens
deriving Repr

/-- Modelled from the spec: TokensBuilder::build_label_enum of builder.rs
(not under src/), the discriminated label-value type with its ordered
variant-to-string table. -/
structure EnumTokens where
  name : String
  visibility : Visibility
  variants : List ValueDef
deriving Repr

/-- One output item appended by AutoFlushTokensBuilder::build. -/
inductive OutputPiece where
  | enum_tokens (e : EnumTokens)
  | metric_tokens (t : MetricTokens)
deriving Repr

/-- MetricBuilderContext::build_inner_struct: one public field per value
of this depth label, typed with inner_member_type, plus last_flush at
depth 0 only. -/
def MetricBuilderContext.build_inner_struct (c : MetricBuilderContext) : InnerStructTokens :=
  { name := c.inner_struct_name
    fields := ((c.label.get_value_def_list c.enum_definitions).map ValueDef.name).map
      (fun n => (n, c.inner_member_type))
    has_last_flush := decide (c.label_index = 0) }

/-- MetricBuilderContext::build_inner_impl_from together with
build_inner_impl_from_body: the label_0 .. label_{i-1} parameters and the
last_flush initialization at depth 0 only. -/
def MetricBuilderContext.build_inner_impl_from (c : MetricBuilderContext) : InnerFromTokens :=
  { prev_label_params := (range_from 0 c.label_index).map (fun k => "label_" ++ toString k)
    inits_last_flush := decide (c.label_index = 0) }

/-- MetricBuilderContext::build_inner_trait_impl: the LocalMetric and
MayFlush impls, with try_flush threshold 1.0, emitted at depth 0 only
(empty tokens otherwise). -/
def MetricBuilderContext.build_inner_trait_impl (c : MetricBuilderContext) :
    Option InnerTraitTokens :=
  if c.label_index = 0 then some { may_flush_threshold := 1 } else none

/-- MetricBuilderContext::build_delegator_struct: at the leaf, offset1
through offsetN fields (N = labels.len()) typed with
delegator_member_type (usize there) plus the root LocalKey field;
at other depths, one field per next-depth value typed with
delegator_member_type (the next Delegator there) and no root. -/
def MetricBuilderContext.build_delegator_struct (c : MetricBuilderContext) :
    DelegatorStructTokens :=
  let field_names := cond c.is_last_label
    ((range_from 1 c.metric.labels.length).map (fun k => "offset" ++ toString k))
    c.delegator_field_names
  { name := c.delegator_struct_name
    root := cond c.is_last_label (some (c.root_struct_name ++ "Inner")) none
    fields := field_names.map (fun n => (n, c.delegator_member_type)) }

/-- MetricBuilderContext::build_delegator_impl_get: emitted only when the
label is defined by a label_enum; the match arms zip the enum
build_fields_with_path patterns with the value-definition-list names. -/
def MetricBuilderContext.build_delegator_impl_get (c : MetricBuilderContext) :
    Option GetTokens :=
  match c.label.get_enum_ident with
  | none => none
  | some e =>
    match lookup_enum c.enum_definitions e with
    | none => none
    | some ed =>
      some { enum_name := e
             return_type := c.delegator_member_type
             arms := ed.build_fields_with_path.zip
               ((c.label.get_value_def_list c.enum_definitions).map ValueDef.name) }

/-- MetricBuilderContext::build_outer_impl_get: same arm construction as
the delegator get, returning a reference to the depth Delegator type. -/
def MetricBuilderContext.build_outer_impl_get (c : MetricBuilderContext) :
    Option GetTokens :=
  match c.label.get_enum_ident with
  | none => none
  | some e =>
    match lookup_enum c.enum_definitions e with
    | none => none
    | some ed =>
      some { enum_name := e
             return_type := c.delegator_struct_name
             arms := ed.build_fields_with_path.zip
               ((c.label.get_value_def_list c.enum_definitions).map ValueDef.name) }

/-- MetricBuilderContext::build_outer_impl_from: the source declares
`pub fn from(inner: ...) -> Lhrs` with the return type hardcoded to the
literal identifier Lhrs while the body constructs #outer_struct_name. -/
def MetricBuilderContext.build_outer_impl_from (c : MetricBuilderContext) : OuterFromTokens :=
  { param_inner_type := c.inner_struct_name
    return_type := "Lhrs"
    constructed_type := c.struct_name }

/-- The offset_fetcher closure of build_auto_flush_delegator: depth 0
additionally binds the root pointer variable; every depth binds the
lowercased member-type variable to the previous address plus
self.offset{label_index + 1}; the leaf dereferences it. -/
def MetricBuilderContext.offset_fetcher (c : MetricBuilderContext) : FetchStmt :=
  { binds_base := decide (c.label_index = 0)
    svar := c.inner_struct_name.toLower
    mvar := c.inner_member_type.toLower
    off_index := c.label_index + 1
    deref := c.is_last_label }

/-- AutoFlushTokensBuilder::build_auto_flush_delegator: indexes
builder_contexts[0] and calls .last().expect(...), so an empty context
list is a fatal layout failure; otherwise the get_counter body is the
offset_fetcher chain in depth order. -/
def build_auto_flush_delegator (ctxs : List MetricBuilderContext) :
    Except BuildError (List FetchStmt) :=
  match ctxs with
  | [] => .error (.LayoutAssumptionViolation "builder contexts should not be empty")
  | _ :: _ => .ok (ctxs.map MetricBuilderContext.offset_fetcher)

/-- The per-label reference check at the top of build_metric_struct: a
label_enum reference must already be declared, and a pub metric may only
reference a pub label_enum; inline value lists are not checked. -/
def validate_label (env : EnumEnv) (vis : Visibility) (metric_name : String)
    (l : MetricLabelDef) : Except BuildError Unit :=
  match l.get_enum_ident with
  | none => .ok ()
  | some e =>
    match lookup_enum env e with
    | none => .error (.UndefinedEnumError e)
    | some ed =>
      match vis with
      | .pub =>
        match ed.visibility with
        | .pub => .ok ()
        | .inherited => .error (.VisibilityError e metric_name)
      | .inherited => .ok ()

/-- The `for label in &metric.labels` validation loop: first failure
aborts. -/
def validate_labels (env : EnumEnv) (vis : Visibility) (metric_name : String) :
    List MetricLabelDef → Except BuildError Unit
  | [] => .ok ()
  | l :: ls =>
    match validate_label env vis metric_name l with
    | .error e => .error e
    | .ok _ => validate_labels env vis metric_name ls

/-- The whole label-reference validation of build_metric_struct. -/
def validate_metric (env : EnumEnv) (m : MetricDef) : Except BuildError Unit :=
  validate_labels env m.visibility m.struct_name m.labels

/-- The enumerate().map(MetricBuilderContext::new).collect() of
build_metric_struct, with the first panic aborting. -/
def collect_contexts (m : MetricDef) (env : EnumEnv) :
    List Nat → Except BuildError (List MetricBuilderContext)
  | [] => .ok []
  | i :: rest =>
    match MetricBuilderContext.new m env i with
    | .error e => .error e
    | .ok c =>
      match collect_contexts m env rest with
      | .error e => .error e
      | .ok cs => .ok (c :: cs)

/-- The builder contexts of one metric, one per label depth. -/
def build_contexts (m : MetricDef) (env : EnumEnv) :
    Except BuildError (List MetricBuilderContext) :=
  collect_contexts m env (range_from 0 m.labels.length)

/-- The per-depth token bundle built by the first map of
build_metric_struct. -/
def build_depth_tokens (c : MetricBuilderContext) : DepthTokens :=
  { inner := c.build_inner_struct
    inner_from := c.build_inner_impl_from
    inner_trait := c.build_inner_trait_impl
    delegator := c.build_delegator_struct
    delegator_get := c.build_delegator_impl_get }

/-- AutoFlushTokensBuilder::build_metric_struct: validate every label
reference first, then build the per-depth contexts and tokens, the
auto-flush delegator chain, and the depth-0 outer pieces, inside the
uniquely numbered scope module. -/
def build_metric_struct (scope_id : Nat) (env : EnumEnv) (m : MetricDef) :
    Except BuildError MetricTokens :=
  match validate_metric env m with
  | .error e => .error e
  | .ok _ =>
    match build_contexts m env with
    | .error e => .error e
    | .ok ctxs =>
      match build_auto_flush_delegator ctxs with
      | .error e => .error e
      | .ok chain =>
        match ctxs with
        | [] => .error .IndexOutOfBounds
        | c0 :: _ =>
          .ok { scope_name := "prometheus_static_scope_" ++ toString scope_id
                depths := ctxs.map build_depth_tokens
                get_counter_chain := chain
                outer_from := c0.build_outer_impl_from
                outer_get := c0.build_outer_impl_get }

/-- Modelled from the spec: the label-enum emission consumed from
builder.rs (not under src/). -/
def build_label_enum (e : MetricEnumDef) : EnumTokens :=
  { name := e.enum_name, visibility := e.visibility, variants := e.definitions }

/-- The item loop of AutoFlushTokensBuilder::build: metrics expand with
the enums seen so far and bump the scope counter; enums expand and are
then recorded.  A panic anywhere aborts the whole expansion, so an error
yields no output at all. -/
def process_items (scope_id : Nat) (env : EnumEnv) :
    List BodyItem → Except BuildError (List OutputPiece × EnumEnv × Nat)
  | [] => .ok ([], env, scope_id)
  | .Metric m :: rest =>
    match build_metric_struct scope_id env m with
    | .error e => .error e
    | .ok t =>
      match process_items (scope_id + 1) env rest with
      | .error e => .error e
      | .ok r => .ok (.metric_tokens t :: r.1, r.2)
  | .Enum e :: rest =>
    match process_items scope_id ((e.enum_name, e) :: env) rest with
    | .error err => .error err
    | .ok r => .ok (.enum_tokens (build_label_enum e) :: r.1, r.2)

/-- AutoFlushTokensBuilder::build over a whole macro body, starting from
an empty enum environment (the scope counter is threaded explicitly, per
the spec design note on the generation-order counter). -/
def build (items : List BodyItem) : Except BuildError (List OutputPiece) :=
  match process_items 0 [] items with
  | .error e => .error e
  | .ok r => .ok r.1

/-- An environment of local variables of the emitted get_counter body,
mapping variable names to the addresses they hold. -/
def upd_env (ρ : String → Option Nat) (k : String) (v : Nat) : String → Option Nat :=
  fun q => if q = k then some v else ρ q

/-- Evaluation of the emitted get_counter statement chain over an address
model: offs gives the value of each stored self.offset field and base is
the address of the calling thread root Inner instance.  Each statement
reads the previous pointer variable, adds its offset, and binds the new
pointer variable; the result is the address dereferenced by the final
(leaf) statement. -/
def eval_stmts (offs : Nat → Nat) (base : Nat) :
    List FetchStmt → (String → Option Nat) → Option Nat
  | [], _ => none
  | s :: rest, ρ =>
    match (cond s.binds_base (upd_env ρ s.svar base) ρ) s.svar with
    | none => none
    | some a =>
      match rest with
      | [] => cond s.deref
          (upd_env (cond s.binds_base (upd_env ρ s.svar base) ρ) s.mvar
            (a + offs s.off_index) s.mvar) none
      | s2 :: rest2 => eval_stmts offs base (s2 :: rest2)
          (upd_env (cond s.binds_base (upd_env ρ s.svar base) ρ) s.mvar
            (a + offs s.off_index))

/-- The arm at position j of an optional emitted get impl. -/
def arm_at (g : Option GetTokens) (j : Nat) : Option (String × String) :=
  g.bind (fun t => t.arms.get? j)

/-- The outer_from tokens of a build result, when it succeeded. -/
def result_outer_from : Except BuildError MetricTokens → Option OuterFromTokens
  | .ok t => some t.outer_from
  | .error _ => none

/-- Decidable form of: every enum referenced by this label resolves in
the environment to a pub enum. -/
def label_refs_pub_only (env : EnumEnv) (l : MetricLabelDef) : Bool :=
  match l.get_enum_ident with
  | none => true
  | some e => decide ((lookup_enum env e).map MetricEnumDef.visibility = some .pub)

/-- A two-label metric (not named Lhrs) with inline value lists, used as
a concrete example input. -/
def ex_metric : MetricDef :=
  { visibility := .pub
    struct_name := "Foo"
    metric_type := "LocalIntCounter"
    labels :=
      [ ⟨"a", .inline_list [⟨"u", "u"⟩, ⟨"v", "v"⟩]⟩
      , ⟨"b", .inline_list [⟨"x", "x"⟩, ⟨"y", "y"⟩]⟩ ] }

/-- A pub label enum used as a concrete example input. -/
def ex_pub_enum : MetricEnumDef :=
  { visibility := .pub
    enum_name := "Methods"
    definitions := [⟨"post", "post"⟩, ⟨"get", "get"⟩] }

/-- A private label enum used as a concrete example input. -/
def ex_priv_enum : MetricEnumDef :=
  { visibility := .inherited
    enum_name := "Secret"
    definitions := [⟨"s1", "s1"⟩] }

/-- A two-label metric whose second label references the pub enum. -/
def ex_enum_metric : MetricDef :=
  { visibility := .pub
    struct_name := "Bar"
    metric_type := "LocalIntCounter"
    labels :=
      [ ⟨"product", .inline_list [⟨"foo", "foo"⟩, ⟨"bar", "bar"⟩]⟩
      , ⟨"method", .dependency "Methods"⟩ ] }

/-- An example environment holding the two example enums. -/
def ex_env : EnumEnv :=
  [("Methods", ex_pub_enum), ("Secret", ex_priv_enum)]

/-- A metric whose first label references an enum that is only declared
later in the item stream. -/
def ex_undef_metric : MetricDef :=
  { visibility := .pub
    struct_name := "Baz"
    metric_type := "LocalIntCounter"
    labels :=
      [ ⟨"m", .dependency "Later"⟩
      , ⟨"v", .inline_list [⟨"a", "a"⟩]⟩ ] }

/-- The enum the previous metric references, declared after it. -/
def ex_later_enum : MetricEnumDef :=
  { visibility := .pub
    enum_name := "Later"
    definitions := [⟨"x", "x"⟩] }

/-- A pub metric referencing the private enum. -/
def ex_bad_metric : MetricDef :=
  { visibility := .pub
    struct_name := "Bad"
    metric_type := "LocalIntCounter"
    labels :=
      [ ⟨"s", .dependency "Secret"⟩
      , ⟨"v", .inline_list [⟨"a", "a"⟩]⟩ ] }

/-- A metric declaring exactly one label. -/
def ex_single_metric : MetricDef :=
  { visibility := .pub
    struct_name := "One"
    metric_type := "LocalIntCounter"
    labels := [⟨"only", .inline_list [⟨"a", "a"⟩]⟩] }

/-- A metric declaring no label at all. -/
def ex_zero_metric : MetricDef :=
  { visibility := .pub
    struct_name := "Zero"
    metric_type := "LocalIntCounter"
    labels := [] }

/-! Helper lemmas about the embedding, shared by the claim theorems. -/

theorem checked_sub_eq_some (a b : Nat) (h : b ≤ a) : checked_sub a b = some (a - b) := by
  simp [checked_sub, h]

theorem checked_sub_eq_none (a b : Nat) (h : a < b) : checked_sub a b = none := by
  simp only [checked_sub, if_neg (by omega : ¬ b ≤ a)]

theorem range_from_length (s n : Nat) : (range_from s n).length = n := by
  induction n generalizing s with
  | zero => rfl
  | succ n ih => simp [range_from, ih]

theorem range_from_get (s n i : Nat) (h : i < n) :
    (range_from s n).get? i = some (s + i) := by
  induction n generalizing s i with
  | zero => exact absurd h (Nat.not_lt_zero i)
  | succ n ih =>
    cases i with
    | zero => simp [range_from]
    | succ i =>
      have := ih (s + 1) i (by omega)
      simp only [range_from, List.get?]
      rw [this]
      congr 1
      omega

theorem lt_of_mem_range_from {s n i : Nat} (h : i ∈ range_from s n) : i < s + n := by
  induction n generalizing s with
  | zero => simp [range_from] at h
  | succ n ih =>
    simp only [range_from, List.mem_cons] at h
    rcases h with rfl | h
    · omega
    · have := ih h
      omega

theorem getq_map {α β : Type} (f : α → β) (l : List α) (i : Nat) :
    (l.map f).get? i = (l.get? i).map f := by
  induction l generalizing i with
  | nil => cases i <;> rfl
  | cons a l ih =>
    cases i with
    | zero => rfl
    | succ i => exact ih i

theorem getq_some_of_lt {α : Type} (l : List α) (i : Nat) (h : i < l.length) :
    ∃ a, l.get? i = some a := by
  induction l generalizing i with
  | nil => exact absurd h (by simp)
  | cons a l ih =>
    cases i with
    | zero => exact ⟨a, rfl⟩
    | succ i => exact ih i (by simpa using h)

theorem getq_zip_map {α β γ : Type} (f : α → β) (g : α → γ) (l : List α) (j : Nat) :
    ((l.map f).zip (l.map g)).get? j = (l.get? j).map (fun d => (f d, g d)) := by
  induction l generalizing j with
  | nil => cases j <;> rfl
  | cons a l ih =>
    cases j with
    | zero => rfl
    | succ j => simpa using ih j

theorem new_eq_ok (m : MetricDef) (env : EnumEnv) (i : Nat)
    (h2 : 2 ≤ m.labels.length) (hi : i < m.labels.length) :
    MetricBuilderContext.new m env i = .ok (mk_context m env i) := by
  obtain ⟨a, ha⟩ := getq_some_of_lt m.labels i hi
  unfold MetricBuilderContext.new
  rw [checked_sub_eq_some _ _ (by omega), checked_sub_eq_some _ _ h2, ha]

theorem new_ok_inv {m : MetricDef} {env : EnumEnv} {i : Nat} {ctx : MetricBuilderContext}
    (h : MetricBuilderContext.new m env i = .ok ctx) : ctx = mk_context m env i := by
  unfold MetricBuilderContext.new at h
  cases h1 : checked_sub m.labels.length 1 with
  | none => rw [h1] at h; exact Except.noConfusion h
  | some x =>
    rw [h1] at h
    cases h2 : checked_sub m.labels.length 2 with
    | none => rw [h2] at h; exact Except.noConfusion h
    | some y =>
      rw [h2] at h
      cases h3 : m.labels.get? i with
      | none => rw [h3] at h; exact Except.noConfusion h
      | some l =>
        rw [h3] at h
        injection h with h
        exact h.symm

theorem collect_contexts_eq (m : MetricDef) (env : EnumEnv) (h2 : 2 ≤ m.labels.length)
    (idxs : List Nat) (hall : ∀ i ∈ idxs, i < m.labels.length) :
    collect_contexts m env idxs = .ok (idxs.map (mk_context m env)) := by
  induction idxs with
  | nil => rfl
  | cons i rest ih =>
    have hi : i < m.labels.length := hall i (by simp)
    simp only [collect_contexts, new_eq_ok m env i h2 hi,
      ih (fun j hj => hall j (by simp [hj])), List.map_cons]

theorem build_contexts_eq (m : MetricDef) (env : EnumEnv) (h2 : 2 ≤ m.labels.length) :
    build_contexts m env = .ok ((range_from 0 m.labels.length).map (mk_context m env)) := by
  exact collect_contexts_eq m env h2 _ (fun i hi => by
    have := lt_of_mem_range_from hi
    omega)

theorem validate_labels_append (env : EnumEnv) (vis : Visibility) (nm : String)
    (xs ys : List MetricLabelDef) :
    validate_labels env vis nm (xs ++ ys) =
      match validate_labels env vis nm xs with
      | .error e => .error e
      | .ok _ => validate_labels env vis nm ys := by
  induction xs with
  | nil => rfl
  | cons l ls ih =>
    simp only [List.cons_append, validate_labels]
    cases validate_label env vis nm l <;> simp [ih]

theorem validate_labels_ok (env : EnumEnv) (vis : Visibility) (nm : String)
    (ls : List MetricLabelDef) (h : ∀ l ∈ ls, validate_label env vis nm l = .ok ()) :
    validate_labels env vis nm ls = .ok () := by
  induction ls with
  | nil => rfl
  | cons l rest ih =>
    simp only [validate_labels, h l (by simp)]
    exact ih fun x hx => h x (by simp [hx])

theorem process_items_append_error (pre : List BodyItem) :
    ∀ {c : Nat} {env : EnumEnv} {err : BuildError} {rest : List BodyItem},
      process_items c env pre = .error err →
      process_items c env (pre ++ rest) = .error err := by
  induction pre with
  | nil => intro c env err rest h; exact Except.noConfusion h
  | cons item pre ih =>
    intro c env err rest h
    cases item with
    | Metric m =>
      rw [List.cons_append]
      unfold process_items at h ⊢
      cases hb : build_metric_struct c env m with
      | error e => rw [hb] at h; exact h
      | ok t =>
        rw [hb] at h
        cases hr : process_items (c + 1) env pre with
        | error e2 =>
          rw [hr] at h
          rw [ih hr]
          exact h
        | ok r => rw [hr] at h; exact Except.noConfusion h
    | Enum e =>
      rw [List.cons_append]
      unfold process_items at h ⊢
      cases hr : process_items c ((e.enum_name, e) :: env) pre with
      | error e2 =>
        rw [hr] at h
        rw [ih hr]
        exact h
      | ok r => rw [hr] at h; exact Except.noConfusion h

theorem process_items_append_ok (pre : List BodyItem) :
    ∀ {c : Nat} {env : EnumEnv} {r : List OutputPiece × EnumEnv × Nat}
      {rest : List BodyItem} {err : BuildError},
      process_items c env pre = .ok r →
      process_items r.2.2 r.2.1 rest = .error err →
      process_items c env (pre ++ rest) = .error err := by
  induction pre with
  | nil =>
    intro c env r rest err h hr
    cases h
    exact hr
  | cons item pre ih =>
    intro c env r rest err h hr
    cases item with
    | Metric m =>
      rw [List.cons_append]
      unfold process_items at h ⊢
      cases hb : build_metric_struct c env m with
      | error e => rw [hb] at h; exact Except.noConfusion h
      | ok t =>
        rw [hb] at h
        cases hp : process_items (c + 1) env pre with
        | error e => rw [hp] at h; exact Except.noConfusion h
        | ok p =>
          rw [hp] at h
          cases h
          rw [ih hp hr]
    | Enum e =>
      rw [List.cons_append]
      unfold process_items at h ⊢
      cases hp : process_items c ((e.enum_name, e) :: env) pre with
      | error e2 => rw [hp] at h; exact Except.noConfusion h
      | ok p =>
        rw [hp] at h
        cases h
        rw [ih hp hr]

theorem range_from_get_none (s n i : Nat) (h : n ≤ i) : (range_from s n).get? i = none := by
  induction n generalizing s i with
  | zero => cases i <;> rfl
  | succ n ih =>
    cases i with
    | zero => omega
    | succ i => exact ih (s + 1) i (by omega)

theorem build_contexts_get {m : MetricDef} {env : EnumEnv}
    {ctxs : List MetricBuilderContext} {i : Nat} {c : MetricBuilderContext}
    (h2 : 2 ≤ m.labels.length) (hb : build_contexts m env = .ok ctxs)
    (hg : ctxs.get? i = some c) : i < m.labels.length ∧ c = mk_context m env i := by
  rw [build_contexts_eq m env h2] at hb
  injection hb with hb
  subst hb
  rw [getq_map] at hg
  by_cases hi : i < m.labels.length
  · rw [range_from_get 0 _ i hi, Nat.zero_add] at hg
    refine ⟨hi, ?_⟩
    injection hg with hg
    exact hg.symm
  · rw [range_from_get_none 0 _ i (by omega)] at hg
    exact Option.noConfusion hg

theorem get_enum_ident_some {l : MetricLabelDef} {e : String}
    (h : l.get_enum_ident = some e) : l.values = .dependency e := by
  cases l with
  | mk k vals =>
    cases vals with
    | inline_list ds => exact Option.noConfusion h
    | dependency e2 =>
      injection h with h
      rw [h]

/-- C9: a MetricDef whose offset computation is impossible — the
zero-label, zero-field case — makes generation fail fatally with the
LayoutAssumptionViolation diagnostic of build_auto_flush_delegator
(the expect on the empty builder-context list), and no tokens are
emitted. -/
theorem c9_zero_labels_layout_violation (scope_id : Nat) (env : EnumEnv) (m : MetricDef)
    (h : m.labels = []) :
    build_metric_struct scope_id env m =
      .error (.LayoutAssumptionViolation "builder contexts should not be empty") := by
  have hv : validate_metric env m = .ok () := by
    unfold validate_metric
    rw [h]
    rfl
  have hc : build_contexts m env = .ok [] := by
    unfold build_contexts
    rw [h]
    rfl
  unfold build_metric_struct
  rw [hv, hc]
  rfl

/-- C10: MetricBuilderContext::new evaluates the usize subtraction
labels.len() - 2, so with exactly one label the (checked) subtraction
underflows and every context construction — hence the whole auto-flush
expansion of that metric — fails, while any metric with at least two
labels constructs all its contexts; the auto-flush builder is therefore
only well-defined for metrics declaring at least two labels. -/
theorem c10_single_label_underflow :
    (∀ (m : MetricDef) (env : EnumEnv) (i : Nat), m.labels.length = 1 →
       MetricBuilderContext.new m env i = .error .ArithmeticUnderflow)
    ∧ (∀ (scope_id : Nat) (env : EnumEnv) (m : MetricDef), m.labels.length = 1 →
       validate_metric env m = .ok () →
       build_metric_struct scope_id env m = .error .ArithmeticUnderflow)
    ∧ (∀ (m : MetricDef) (env : EnumEnv) (i : Nat), 2 ≤ m.labels.length →
       i < m.labels.length →
       MetricBuilderContext.new m env i = .ok (mk_context m env i)) := by
  have part1 : ∀ (m : MetricDef) (env : EnumEnv) (i : Nat), m.labels.length = 1 →
      MetricBuilderContext.new m env i = .error .ArithmeticUnderflow := by
    intro m env i h1
    unfold MetricBuilderContext.new
    rw [h1]
    rfl
  refine ⟨part1, ?_, ?_⟩
  · intro sid env m h1 hv
    have hc : build_contexts m env = .error .ArithmeticUnderflow := by
      unfold build_contexts
      rw [h1]
      show collect_contexts m env [0] = _
      unfold collect_contexts
      rw [part1 m env 0 h1]
    unfold build_metric_struct
    rw [hv, hc]
  · intro m env i h2 hi
    exact new_eq_ok m env i h2 hi

/-- C8: generation is all-or-nothing — a validation failure of any label
propagates unchanged out of build_metric_struct before any struct tokens
of that metric are produced, and a failing metric anywhere in the item
stream makes the whole build return the error and no output token
stream at all, even for earlier items that expanded successfully. -/
theorem c8_all_or_nothing :
    (∀ (scope_id : Nat) (env : EnumEnv) (m : MetricDef) (err : BuildError),
       validate_metric env m = .error err →
       build_metric_struct scope_id env m = .error err)
    ∧ (∀ (pre : List BodyItem) (m : MetricDef) (post : List BodyItem) (err : BuildError),
       process_items 0 [] (pre ++ [BodyItem.Metric m]) = .error err →
       build (pre ++ .Metric m :: post) = .error err) := by
  constructor
  · intro sid env m err h
    unfold build_metric_struct
    rw [h]
  · intro pre m post err h
    have hsplit : pre ++ BodyItem.Metric m :: post = (pre ++ [BodyItem.Metric m]) ++ post := by
      simp
    unfold build
    rw [hsplit, process_items_append_error _ h]

/-- C7: a pub metric referencing a declared label_enum fails validation
with a VisibilityError naming the enum and the metric whenever that enum
is not pub (provided the earlier labels validated), passes validation
whenever every referenced enum is pub, and labels defined by anonymous
inline value lists are never subject to the visibility check. -/
theorem c7_visibility_check (env : EnumEnv) (m : MetricDef) (hpub : m.visibility = .pub) :
    (∀ (lpre : List MetricLabelDef) (l : MetricLabelDef) (lrest : List MetricLabelDef)
       (e : String) (ed : MetricEnumDef),
       m.labels = lpre ++ l :: lrest →
       validate_labels env m.visibility m.struct_name lpre = .ok () →
       l.get_enum_ident = some e →
       lookup_enum env e = some ed →
       ed.visibility ≠ .pub →
       validate_metric env m = .error (.VisibilityError e m.struct_name))
    ∧ ((∀ l ∈ m.labels, label_refs_pub_only env l = true) → validate_metric env m = .ok ())
    ∧ (∀ l : MetricLabelDef, l.get_enum_ident = none →
       validate_label env m.visibility m.struct_name l = .ok ()) := by
  refine ⟨?_, ?_, ?_⟩
  · intro lpre l lrest e ed hsplit hok href hlook hvis
    have hvl : validate_label env m.visibility m.struct_name l =
        .error (.VisibilityError e m.struct_name) := by
      cases hv : ed.visibility with
      | pub => exact absurd hv hvis
      | inherited => simp only [validate_label, href, hlook, hpub, hv]
    unfold validate_metric
    rw [hsplit, validate_labels_append, hok]
    show validate_labels env m.visibility m.struct_name (l :: lrest) = _
    unfold validate_labels
    rw [hvl]
  · intro hall
    unfold validate_metric
    apply validate_labels_ok
    intro l hl
    have ht := hall l hl
    cases hid : l.get_enum_ident with
    | none => simp only [validate_label, hid]
    | some e =>
      simp only [label_refs_pub_only, hid] at ht
      have hm := of_decide_eq_true ht
      cases hlk : lookup_enum env e with
      | none =>
        rw [hlk] at hm
        exact Option.noConfusion hm
      | some ed =>
        rw [hlk] at hm
        have hv : ed.visibility = .pub :=
          Option.some.inj (show some ed.visibility = some Visibility.pub from hm)
        simp only [validate_label, hid, hlk, hpub, hv]
  · intro l h
    simp only [validate_label, h]

/-- C6: in the single forward pass of the item loop, a metric whose label
references an enum name not yet declared at that point (including an
enum only declared later in the same input) makes the whole build fail
fatally with an UndefinedEnumError naming that enum, provided the earlier
items and the earlier labels of the metric validated. -/
theorem c6_undefined_enum (pre post : List BodyItem) (m : MetricDef)
    (r : List OutputPiece × EnumEnv × Nat)
    (lpre : List MetricLabelDef) (l : MetricLabelDef) (lrest : List MetricLabelDef)
    (e : String)
    (hpre : process_items 0 [] pre = .ok r)
    (hsplit : m.labels = lpre ++ l :: lrest)
    (hok : validate_labels r.2.1 m.visibility m.struct_name lpre = .ok ())
    (href : l.get_enum_ident = some e)
    (hundef : lookup_enum r.2.1 e = none) :
    build (pre ++ .Metric m :: post) = .error (.UndefinedEnumError e) := by
  have hvl : validate_label r.2.1 m.visibility m.struct_name l =
      .error (.UndefinedEnumError e) := by
    simp only [validate_label, href, hundef]
  have hvm : validate_metric r.2.1 m = .error (.UndefinedEnumError e) := by
    unfold validate_metric
    rw [hsplit, validate_labels_append, hok]
    show validate_labels r.2.1 m.visibility m.struct_name (l :: lrest) = _
    unfold validate_labels
    rw [hvl]
  have hbm : build_metric_struct r.2.2 r.2.1 m = .error (.UndefinedEnumError e) := by
    unfold build_metric_struct
    rw [hvm]
  have hpm : process_items r.2.2 r.2.1 (BodyItem.Metric m :: post) =
      .error (.UndefinedEnumError e) := by
    unfold process_items
    rw [hbm]
  unfold build
  rw [process_items_append_ok pre hpre hpm]

/-- C3 (code bug): build_outer_impl_from declares the emitted depth-0
constructor as pub fn from(inner) -> Lhrs with the return type hardcoded
to the literal identifier Lhrs taken from the examples, while its body
constructs the metric own struct name — here the metric is named Foo, the
expansion succeeds, and the emitted return type Lhrs differs from both
the declared struct name and the constructed type, contradicting the
deterministic name derivation the spec requires. -/
theorem c3_hardcoded_return_type :
    result_outer_from (build_metric_struct 0 [] ex_metric) =
      some { param_inner_type := "FooInner", return_type := "Lhrs", constructed_type := "Foo" }
    ∧ ex_metric.struct_name = "Foo" ∧ ("Lhrs" : String) ≠ "Foo" := by
  refine ⟨rfl, rfl, by decide⟩

/-- C5: for every successfully planned metric, exactly the depth-0 Inner
struct carries the last_flush timestamp field (and its fn from
initializes it), and exactly the depth-0 Inner struct receives the
MayFlush implementation whose try_flush threshold is the constant 1;
every deeper Inner struct has neither the field nor the impl. -/
theorem c5_root_only_may_flush (m : MetricDef) (env : EnumEnv)
    (h2 : 2 ≤ m.labels.length) :
    ∀ (ctxs : List MetricBuilderContext) (i : Nat) (c : MetricBuilderContext),
      build_contexts m env = .ok ctxs → ctxs.get? i = some c →
      ((c.build_inner_struct.has_last_flush = true) ↔ i = 0)
      ∧ (i = 0 → c.build_inner_trait_impl = some { may_flush_threshold := 1 }
          ∧ c.build_inner_impl_from.inits_last_flush = true)
      ∧ (i ≠ 0 → c.build_inner_trait_impl = none
          ∧ c.build_inner_impl_from.inits_last_flush = false
          ∧ c.build_inner_struct.has_last_flush = false) := by
  intro ctxs i c hb hg
  obtain ⟨hi, rfl⟩ := build_contexts_get h2 hb hg
  refine ⟨?_, ?_, ?_⟩
  · simp [MetricBuilderContext.build_inner_struct, mk_context]
  · intro h0
    subst h0
    constructor
    · simp [MetricBuilderContext.build_inner_trait_impl, mk_context]
    · simp [MetricBuilderContext.build_inner_impl_from, mk_context]
  · intro hne
    refine ⟨?_, ?_, ?_⟩
    · simp [MetricBuilderContext.build_inner_trait_impl, mk_context, hne]
    · simp [MetricBuilderContext.build_inner_impl_from, mk_context, hne]
    · simp [MetricBuilderContext.build_inner_struct, mk_context, hne]

theorem append_delegator_ne_usize (s : String) : s ++ "Delegator" ≠ "usize" := by
  intro h
  have hl := congrArg String.length h
  rw [String.length_append] at hl
  have h9 : "Delegator".length = 9 := rfl
  have h5 : "usize".length = 5 := rfl
  rw [h9, h5] at hl
  omega

/-- C4 (amended): the generator emits one Delegator struct per label
depth; only the leaf-depth Delegator carries the integer offset fields —
offset1 through offsetN, one per depth up to and including the leaf, all
of type usize — together with the root reference to the thread-local
root Inner slot, while a Delegator at any non-leaf depth carries no root
reference and no offset fields: its fields are exactly one child
Delegator per value of the next-depth label, typed with the next-depth
Delegator type, and none of its fields has the offset type usize. -/
theorem c4_delegator_fields (m : MetricDef) (env : EnumEnv) (h2 : 2 ≤ m.labels.length) :
    (build_contexts m env).map List.length = .ok m.labels.length
    ∧ ∀ (ctxs : List MetricBuilderContext) (i : Nat) (c : MetricBuilderContext),
        build_contexts m env = .ok ctxs → ctxs.get? i = some c →
        (i = m.labels.length - 1 →
          c.build_delegator_struct.root = some (m.struct_name ++ "Inner")
          ∧ c.build_delegator_struct.fields =
              (range_from 1 m.labels.length).map (fun k => ("offset" ++ toString k, "usize")))
        ∧ (i ≠ m.labels.length - 1 →
          c.build_delegator_struct.root = none
          ∧ c.build_delegator_struct.fields =
              (((m.labels.get? (i + 1)).getD default).get_value_def_list env).map
                (fun v => (v.name, get_label_struct_name m.struct_name (i + 1) ++ "Delegator"))
          ∧ ∀ f ∈ c.build_delegator_struct.fields, f.2 ≠ "usize") := by
  constructor
  · rw [build_contexts_eq m env h2]
    simp [Except.map, range_from_length]
  · intro ctxs i c hb hg
    obtain ⟨hi, rfl⟩ := build_contexts_get h2 hb hg
    constructor
    · intro hlast
      constructor
      · simp [MetricBuilderContext.build_delegator_struct, mk_context, hlast,
          get_label_struct_name]
      · simp [MetricBuilderContext.build_delegator_struct, mk_context, hlast,
          get_delegator_member_type, List.map_map]
    · intro hne
      have hfields : (mk_context m env i).build_delegator_struct.fields =
          (((m.labels.get? (i + 1)).getD default).get_value_def_list env).map
            (fun v => (v.name, get_label_struct_name m.struct_name (i + 1) ++ "Delegator")) := by
        simp [MetricBuilderContext.build_delegator_struct, mk_context, hne,
          MetricBuilderContext.delegator_field_names, get_delegator_member_type, List.map_map]
      refine ⟨?_, hfields, ?_⟩
      · simp [MetricBuilderContext.build_delegator_struct, mk_context, hne]
      · intro f hf
        rw [hfields] at hf
        rw [List.mem_map] at hf
        obtain ⟨v, hv, rfl⟩ := hf
        exact append_delegator_ne_usize _

/-- C4 counterexample: for a concrete two-label metric the depth-0
Delegator (a non-leaf Delegator emitted by the same plan) carries no
offset field at all and no usize field — its fields are the next-depth
child Delegators — refuting the claim that each Delegator carries one
integer offset field per depth. -/
theorem c4_counterexample :
    build_contexts ex_metric [] = .ok [mk_context ex_metric [] 0, mk_context ex_metric [] 1]
    ∧ (mk_context ex_metric [] 0).build_delegator_struct.fields =
        [("x", "Foo2Delegator"), ("y", "Foo2Delegator")]
    ∧ ((mk_context ex_metric [] 0).build_delegator_struct.fields.map Prod.fst).contains
        "offset1" = false
    ∧ ((mk_context ex_metric [] 0).build_delegator_struct.fields.map Prod.snd).contains
        "usize" = false := by
  refine ⟨rfl, rfl, rfl, rfl⟩

/-- C1: for every planned depth whose label was declared via a named
label_enum, both the Delegator get and the outer get are emitted with the
same match table, whose j-th arm pairs the j-th enum variant pattern with
the field named by the j-th value of that label value-definition list; in
consequence evaluating the emitted accessor at the j-th variant reads
exactly the field that direct field access by the variant derived field
name reads. -/
theorem c1_enum_get_accessor (m : MetricDef) (env : EnumEnv) (i : Nat)
    (ctx : MetricBuilderContext) (e : String) (ed : MetricEnumDef) (j : Nat) (d : ValueDef)
    (hnew : MetricBuilderContext.new m env i = .ok ctx)
    (href : ctx.label.get_enum_ident = some e)
    (hlook : lookup_enum env e = some ed)
    (hdef : ed.definitions.get? j = some d) :
    arm_at ctx.build_delegator_impl_get j = some (ed.enum_name ++ "::" ++ d.name, d.name)
    ∧ arm_at ctx.build_outer_impl_get j = some (ed.enum_name ++ "::" ++ d.name, d.name)
    ∧ ∀ (f : String → Nat),
        (arm_at ctx.build_delegator_impl_get j).map (fun a => f a.2) = some (f d.name) := by
  have hctx := new_ok_inv hnew
  subst hctx
  have henv : (mk_context m env i).enum_definitions = env := rfl
  have hval : (mk_context m env i).label.values = .dependency e := get_enum_ident_some href
  have hvdl : (mk_context m env i).label.get_value_def_list env = ed.definitions := by
    simp only [MetricLabelDef.get_value_def_list, hval, hlook]
  have harms :
      ed.build_fields_with_path.zip
        (((mk_context m env i).label.get_value_def_list env).map ValueDef.name) =
      (ed.definitions.map (fun v => ed.enum_name ++ "::" ++ v.name)).zip
        (ed.definitions.map ValueDef.name) := by
    rw [hvdl]
    rfl
  have hgetq :
      ((ed.definitions.map (fun v => ed.enum_name ++ "::" ++ v.name)).zip
        (ed.definitions.map ValueDef.name)).get? j =
      some (ed.enum_name ++ "::" ++ d.name, d.name) := by
    rw [getq_zip_map]
    rw [hdef]
    rfl
  have hdel : arm_at (mk_context m env i).build_delegator_impl_get j =
      some (ed.enum_name ++ "::" ++ d.name, d.name) := by
    simp only [MetricBuilderContext.build_delegator_impl_get, href, henv, hlook, arm_at,
      Option.bind_some]
    rw [harms]
    exact hgetq
  have hout : arm_at (mk_context m env i).build_outer_impl_get j =
      some (ed.enum_name ++ "::" ++ d.name, d.name) := by
    simp only [MetricBuilderContext.build_outer_impl_get, href, henv, hlook, arm_at,
      Option.bind_some]
    rw [harms]
    exact hgetq
  refine ⟨hdel, hout, ?_⟩
  intro f
  rw [hdel]
  rfl

theorem upd_env_self (ρ : String → Option Nat) (k : String) (v : Nat) :
    upd_env ρ k v k = some v := by
  simp [upd_env]

theorem eval_stmts_cons_nil (offs : Nat → Nat) (base : Nat) (s : FetchStmt)
    (ρ : String → Option Nat) (A : Nat)
    (hb : s.binds_base = false) (hρ : ρ s.svar = some A) (hd : s.deref = true) :
    eval_stmts offs base [s] ρ = some (A + offs s.off_index) := by
  conv_lhs => unfold eval_stmts
  rw [hb, cond_false, hρ]
  show cond s.deref (upd_env ρ s.mvar (A + offs s.off_index) s.mvar) none = _
  rw [hd, cond_true, upd_env_self]

theorem eval_stmts_cons_cons (offs : Nat → Nat) (base : Nat) (s s2 : FetchStmt)
    (rest : List FetchStmt) (ρ : String → Option Nat) (A : Nat)
    (hb : s.binds_base = false) (hρ : ρ s.svar = some A) :
    eval_stmts offs base (s :: s2 :: rest) ρ =
      eval_stmts offs base (s2 :: rest) (upd_env ρ s.mvar (A + offs s.off_index)) := by
  conv_lhs => unfold eval_stmts
  rw [hb, cond_false, hρ]

theorem eval_stmts_head_cons (offs : Nat → Nat) (base : Nat) (s s2 : FetchStmt)
    (rest : List FetchStmt) (ρ : String → Option Nat)
    (hb : s.binds_base = true) :
    eval_stmts offs base (s :: s2 :: rest) ρ =
      eval_stmts offs base (s2 :: rest)
        (upd_env (upd_env ρ s.svar base) s.mvar (base + offs s.off_index)) := by
  conv_lhs => unfold eval_stmts
  rw [hb, cond_true, upd_env_self]

theorem range_from_map_succ (s k : Nat) :
    (range_from s k).map (fun i => i + 1) = range_from (s + 1) k := by
  induction k generalizing s with
  | zero => rfl
  | succ k ih => simp [range_from, ih]

theorem eval_chain (m : MetricDef) (env : EnumEnv) (offs : Nat → Nat) (base : Nat) :
    ∀ (k j : Nat) (ρ : String → Option Nat) (A : Nat),
      1 ≤ j → j + k + 1 = m.labels.length →
      ρ ((get_label_struct_name m.struct_name j ++ "Inner").toLower) = some A →
      eval_stmts offs base
        ((range_from j (k + 1)).map (fun i => (mk_context m env i).offset_fetcher)) ρ
        = some (A + ((range_from (j + 1) (k + 1)).map offs).sum) := by
  intro k
  induction k with
  | zero =>
    intro j ρ A hj hn hρ
    have hb : ((mk_context m env j).offset_fetcher).binds_base = false := by
      simp only [MetricBuilderContext.offset_fetcher, mk_context, decide_eq_false_iff_not]
      omega
    have hd : ((mk_context m env j).offset_fetcher).deref = true := by
      simp only [MetricBuilderContext.offset_fetcher, mk_context, decide_eq_true_eq]
      omega
    have hρ2 : ρ ((mk_context m env j).offset_fetcher).svar = some A := hρ
    show eval_stmts offs base [(mk_context m env j).offset_fetcher] ρ = _
    rw [eval_stmts_cons_nil offs base _ ρ A hb hρ2 hd]
    show some (A + offs (j + 1)) = _
    simp only [range_from, List.map_cons, List.map_nil, List.sum_cons, List.sum_nil,
      Nat.add_zero]
  | succ k ih =>
    intro j ρ A hj hn hρ
    have hb : ((mk_context m env j).offset_fetcher).binds_base = false := by
      simp only [MetricBuilderContext.offset_fetcher, mk_context, decide_eq_false_iff_not]
      omega
    have hρ2 : ρ ((mk_context m env j).offset_fetcher).svar = some A := hρ
    have hmv : ((mk_context m env j).offset_fetcher).mvar =
        (get_label_struct_name m.struct_name (j + 1) ++ "Inner").toLower := by
      have hjn : decide (j = m.labels.length - 1) = false := by
        simp only [decide_eq_false_iff_not]
        omega
      simp only [MetricBuilderContext.offset_fetcher, mk_context]
      rw [hjn]
      simp [get_inner_member_type]
    show eval_stmts offs base
        ((mk_context m env j).offset_fetcher ::
          (mk_context m env (j + 1)).offset_fetcher ::
          (range_from (j + 2) k).map (fun i => (mk_context m env i).offset_fetcher)) ρ = _
    rw [eval_stmts_cons_cons offs base _ _ _ ρ A hb hρ2]
    have hρ3 : (upd_env ρ ((mk_context m env j).offset_fetcher).mvar
          (A + offs ((mk_context m env j).offset_fetcher).off_index))
        ((get_label_struct_name m.struct_name (j + 1) ++ "Inner").toLower)
        = some (A + offs (j + 1)) := by
      rw [← hmv]
      exact upd_env_self ρ _ _
    have hrec := ih (j + 1)
      (upd_env ρ ((mk_context m env j).offset_fetcher).mvar
        (A + offs ((mk_context m env j).offset_fetcher).off_index))
      (A + offs (j + 1)) (by omega) (by omega) hρ3
    refine Eq.trans ?_ (hrec.trans ?_)
    · rfl
    · show some (A + offs (j + 1) + ((range_from (j + 2) (k + 1)).map offs).sum) =
        some (A + (offs (j + 1) + ((range_from (j + 2) (k + 1)).map offs).sum))
      rw [Nat.add_assoc]

/-- C2: the leaf get_counter body emitted for a metric with N labels is
the offset_fetcher chain in depth order — the emitted statements add the
stored offsets offset1 through offsetN in that order, each intermediate
address being the previous address plus that depth offset — and running
it over the address model starting from the root base address resolves
the address base + (sum of all stored offsets) and finally dereferences
the leaf pointer, whose member type is the concrete metric type. -/
theorem c2_offset_chain_resolution (m : MetricDef) (env : EnumEnv) (offs : Nat → Nat)
    (base : Nat) (h2 : 2 ≤ m.labels.length) :
    (build_contexts m env).map
        (fun ctxs => (ctxs.map MetricBuilderContext.offset_fetcher).map FetchStmt.off_index)
      = .ok (range_from 1 m.labels.length)
    ∧ (build_contexts m env).map
        (fun ctxs => eval_stmts offs base (ctxs.map MetricBuilderContext.offset_fetcher)
          (fun _ => none))
      = .ok (some (base + ((range_from 1 m.labels.length).map offs).sum))
    ∧ (build_contexts m env).map
        (fun ctxs => ((ctxs.map MetricBuilderContext.offset_fetcher).get?
            (m.labels.length - 1)).map (fun s => (s.deref, s.mvar)))
      = .ok (some (true, m.metric_type.toLower)) := by
  rw [build_contexts_eq m env h2]
  refine ⟨?_, ?_, ?_⟩
  · simp only [Except.map]
    congr 1
    rw [List.map_map, List.map_map]
    show (range_from 0 m.labels.length).map (fun i => i + 1) = _
    exact range_from_map_succ 0 m.labels.length
  · simp only [Except.map]
    congr 1
    obtain ⟨n, hn⟩ : ∃ n, m.labels.length = n + 2 := ⟨m.labels.length - 2, by omega⟩
    rw [hn, List.map_map]
    show eval_stmts offs base
        ((mk_context m env 0).offset_fetcher ::
          (mk_context m env 1).offset_fetcher ::
          (range_from 2 n).map (fun i => (mk_context m env i).offset_fetcher))
        (fun _ => none)
      = some (base + ((range_from 1 (n + 2)).map offs).sum)
    have hb0 : ((mk_context m env 0).offset_fetcher).binds_base = true := rfl
    rw [eval_stmts_head_cons offs base _ _ _ _ hb0]
    have hmv0 : ((mk_context m env 0).offset_fetcher).mvar =
        (get_label_struct_name m.struct_name 1 ++ "Inner").toLower := by
      have h0n : decide ((0 : Nat) = m.labels.length - 1) = false := by
        simp only [decide_eq_false_iff_not]
        omega
      simp only [MetricBuilderContext.offset_fetcher, mk_context]
      rw [h0n]
      simp [get_inner_member_type]
    have hρ1 : (upd_env
          (upd_env (fun _ => none) ((mk_context m env 0).offset_fetcher).svar base)
          ((mk_context m env 0).offset_fetcher).mvar
          (base + offs ((mk_context m env 0).offset_fetcher).off_index))
        ((get_label_struct_name m.struct_name 1 ++ "Inner").toLower)
        = some (base + offs 1) := by
      rw [← hmv0]
      exact upd_env_self _ _ _
    have hchain := eval_chain m env offs base n 1
      (upd_env (upd_env (fun _ => none) ((mk_context m env 0).offset_fetcher).svar base)
        ((mk_context m env 0).offset_fetcher).mvar
        (base + offs ((mk_context m env 0).offset_fetcher).off_index))
      (base + offs 1) (by omega) (by omega) hρ1
    refine Eq.trans ?_ (hchain.trans ?_)
    · rfl
    · show some (base + offs 1 + ((range_from 2 (n + 1)).map offs).sum) =
        some (base + (offs 1 + ((range_from 2 (n + 1)).map offs).sum))
      rw [Nat.add_assoc]
  · simp only [Except.map]
    congr 1
    rw [List.map_map, getq_map]
    have hlt : m.labels.length - 1 < m.labels.length := by omega
    rw [range_from_get 0 _ _ hlt, Nat.zero_add]
    have hd : ((mk_context m env (m.labels.length - 1)).offset_fetcher).deref = true := by
      simp [MetricBuilderContext.offset_fetcher, mk_context]
    have hm : ((mk_context m env (m.labels.length - 1)).offset_fetcher).mvar
        = m.metric_type.toLower := by
      simp [MetricBuilderContext.offset_fetcher, mk_context, get_inner_member_type]
    show some ((((mk_context m env (m.labels.length - 1)).offset_fetcher).deref),
        (((mk_context m env (m.labels.length - 1)).offset_fetcher).mvar))
      = some (true, m.metric_type.toLower)
    rw [hd, hm]

/-- C1 witness: the accessor theorem instantiated on the concrete metric
whose second label is the Methods label_enum, at variant 0. -/
theorem c1_witness :
    arm_at (mk_context ex_enum_metric ex_env 1).build_delegator_impl_get 0
      = some ("Methods::post", "post")
    ∧ arm_at (mk_context ex_enum_metric ex_env 1).build_outer_impl_get 0
      = some ("Methods::post", "post")
    ∧ (arm_at (mk_context ex_enum_metric ex_env 1).build_delegator_impl_get 0).map
        (fun a => String.length a.2) = some 4 := by
  have h := c1_enum_get_accessor ex_enum_metric ex_env 1 (mk_context ex_enum_metric ex_env 1)
    "Methods" ex_pub_enum 0 ⟨"post", "post"⟩ rfl rfl rfl rfl
  exact ⟨h.1, h.2.1, h.2.2 String.length⟩

/-- C2 witness: the offset-chain theorem instantiated on the concrete
two-label metric with offsets 10 and 20 and base address 100. -/
theorem c2_witness :
    (build_contexts ex_metric []).map
        (fun ctxs => (ctxs.map MetricBuilderContext.offset_fetcher).map FetchStmt.off_index)
      = .ok [1, 2]
    ∧ (build_contexts ex_metric []).map
        (fun ctxs => eval_stmts (fun k => 10 * k) 100
          (ctxs.map MetricBuilderContext.offset_fetcher) (fun _ => none))
      = .ok (some 130)
    ∧ (build_contexts ex_metric []).map
        (fun ctxs => ((ctxs.map MetricBuilderContext.offset_fetcher).get?
            (ex_metric.labels.length - 1)).map (fun s => (s.deref, s.mvar)))
      = .ok (some (true, ex_metric.metric_type.toLower)) := by
  have h := c2_offset_chain_resolution ex_metric [] (fun k => 10 * k) 100 (by decide)
  exact ⟨h.1, h.2.1, h.2.2⟩

/-- C4 witness: the amended delegator-shape theorem instantiated on the
concrete two-label metric. -/
theorem c4_witness :
    (build_contexts ex_metric []).map List.length = .ok 2
    ∧ (mk_context ex_metric [] 1).build_delegator_struct.root = some "FooInner"
    ∧ (mk_context ex_metric [] 1).build_delegator_struct.fields =
        [("offset1", "usize"), ("offset2", "usize")]
    ∧ (mk_context ex_metric [] 0).build_delegator_struct.root = none
    ∧ (mk_context ex_metric [] 0).build_delegator_struct.fields =
        [("x", "Foo2Delegator"), ("y", "Foo2Delegator")]
    ∧ ("Foo2Delegator" : String) ≠ "usize" := by
  have h := c4_delegator_fields ex_metric [] (by decide)
  have hi := h.2 [mk_context ex_metric [] 0, mk_context ex_metric [] 1] 1
    (mk_context ex_metric [] 1) rfl rfl
  have h0 := h.2 [mk_context ex_metric [] 0, mk_context ex_metric [] 1] 0
    (mk_context ex_metric [] 0) rfl rfl
  exact ⟨h.1, (hi.1 rfl).1, (hi.1 rfl).2, (h0.2 (by decide)).1, (h0.2 (by decide)).2.1,
    (h0.2 (by decide)).2.2 ("x", "Foo2Delegator") (by decide)⟩

/-- C5 witness: the depth-0-only last_flush and MayFlush theorem
instantiated on the concrete two-label metric at depths 0 and 1. -/
theorem c5_witness :
    (mk_context ex_metric [] 0).build_inner_struct.has_last_flush = true
    ∧ (mk_context ex_metric [] 0).build_inner_trait_impl = some { may_flush_threshold := 1 }
    ∧ (mk_context ex_metric [] 0).build_inner_impl_from.inits_last_flush = true
    ∧ (mk_context ex_metric [] 1).build_inner_trait_impl = none
    ∧ (mk_context ex_metric [] 1).build_inner_impl_from.inits_last_flush = false
    ∧ (mk_context ex_metric [] 1).build_inner_struct.has_last_flush = false := by
  have h0 := c5_root_only_may_flush ex_metric [] (by decide)
    [mk_context ex_metric [] 0, mk_context ex_metric [] 1] 0 (mk_context ex_metric [] 0) rfl rfl
  have h1 := c5_root_only_may_flush ex_metric [] (by decide)
    [mk_context ex_metric [] 0, mk_context ex_metric [] 1] 1 (mk_context ex_metric [] 1) rfl rfl
  exact ⟨h0.1.mpr rfl, (h0.2.1 rfl).1, (h0.2.1 rfl).2,
    (h1.2.2 (by decide)).1, (h1.2.2 (by decide)).2.1, (h1.2.2 (by decide)).2.2⟩

/-- C6 witness: a metric referencing the enum Later that is only declared
after it; the whole build fails with UndefinedEnumError Later. -/
theorem c6_witness :
    build [BodyItem.Metric ex_undef_metric, BodyItem.Enum ex_later_enum]
      = .error (.UndefinedEnumError "Later") :=
  c6_undefined_enum [] [BodyItem.Enum ex_later_enum] ex_undef_metric ([], [], 0)
    [] ⟨"m", .dependency "Later"⟩ [⟨"v", .inline_list [⟨"a", "a"⟩]⟩] "Later"
    rfl rfl rfl rfl rfl

/-- C7 witness: the pub metric against the private enum fails with the
VisibilityError naming both; the same validation succeeds against the pub
enum; an inline label always validates. -/
theorem c7_witness :
    validate_metric ex_env ex_bad_metric = .error (.VisibilityError "Secret" "Bad")
    ∧ validate_metric ex_env ex_enum_metric = .ok ()
    ∧ validate_label ex_env ex_bad_metric.visibility ex_bad_metric.struct_name
        ⟨"k", .inline_list []⟩ = .ok () := by
  refine ⟨?_, ?_, ?_⟩
  · exact (c7_visibility_check ex_env ex_bad_metric rfl).1 []
      ⟨"s", .dependency "Secret"⟩ [⟨"v", .inline_list [⟨"a", "a"⟩]⟩]
      "Secret" ex_priv_enum rfl rfl rfl rfl (by decide)
  · exact (c7_visibility_check ex_env ex_enum_metric rfl).2.1 (by decide)
  · exact (c7_visibility_check ex_env ex_bad_metric rfl).2.2 ⟨"k", .inline_list []⟩ rfl

/-- C8 witness: a failing metric in the middle of a stream aborts the
whole build with the validation error, emitting nothing, although the
preceding enum and the following metric are themselves fine. -/
theorem c8_witness :
    build_metric_struct 0 [("Secret", ex_priv_enum)] ex_bad_metric =
      .error (.VisibilityError "Secret" "Bad")
    ∧ build ([BodyItem.Enum ex_priv_enum] ++ BodyItem.Metric ex_bad_metric ::
        [BodyItem.Metric ex_metric]) = .error (.VisibilityError "Secret" "Bad") := by
  refine ⟨?_, ?_⟩
  · exact c8_all_or_nothing.1 0 [("Secret", ex_priv_enum)] ex_bad_metric
      (.VisibilityError "Secret" "Bad") rfl
  · exact c8_all_or_nothing.2 [BodyItem.Enum ex_priv_enum] ex_bad_metric
      [BodyItem.Metric ex_metric] (.VisibilityError "Secret" "Bad") rfl

/-- C9 witness: the zero-label metric makes build_metric_struct fail with
the LayoutAssumptionViolation diagnostic. -/
theorem c9_witness :
    build_metric_struct 0 [] ex_zero_metric =
      .error (.LayoutAssumptionViolation "builder contexts should not be empty") :=
  c9_zero_labels_layout_violation 0 [] ex_zero_metric rfl

/-- C10 witness: the one-label metric underflows in context construction
and in the whole expansion, while the two-label metric constructs its
depth-1 context. -/
theorem c10_witness :
    MetricBuilderContext.new ex_single_metric [] 0 = .error .ArithmeticUnderflow
    ∧ build_metric_struct 0 [] ex_single_metric = .error .ArithmeticUnderflow
    ∧ MetricBuilderContext.new ex_metric [] 1 = .ok (mk_context ex_metric [] 1) := by
  refine ⟨?_, ?_, ?_⟩
  · exact c10_single_label_underflow.1 ex_single_metric [] 0 rfl
  · exact c10_single_label_underflow.2.1 0 [] ex_single_metric rfl rfl
  · exact c10_single_label_underflow.2.2 ex_metric [] 1 (by decide) (by decide)
